import Mathlib

/-!
Verification of the bilinear-interpolation core of the `Interpolation`
repository (`src/interpolation/interpolation.py` and `src/interpolation/cli.py`).

The Python code is shallowly embedded over exact rational arithmetic (`ℚ`):

* `searchsorted` models `np.searchsorted(a, v)` with the default
  `side='left'` on a sorted array: the index of the first element that is
  `≥ v` (equivalently the number of leading elements `< v`).
* `pyGet` models Python/numpy indexing `a[i]` with an `Int` index:
  negative indices wrap once from the end, out-of-range access fails.
* `RectangularGrid`, `get_value`, `find_bounding_cell`, `interpolate`
  mirror the methods of the `RectangularGrid` and `BilinearInterpolator`
  classes; exceptions become `Except.error`.
* `arange` models `np.arange(start, stop, step)` for rational arguments
  (`ZeroDivisionError` on a zero step), and `resize_image` / `cliResize`
  mirror `resize_image` and the `resize` CLI command, returning the resized
  value array (the final `uint8` PIL conversion carries no claim content).
-/

unseal Rat.add Rat.mul Rat.sub Rat.inv Rat.ofScientific

/-- Decidable equality of `Except` results, for evaluating the embedding on
concrete inputs. -/
instance exceptDecEq {α β : Type} [DecidableEq α] [DecidableEq β] :
    DecidableEq (Except α β) :=
  fun x y =>
    match x, y with
    | .error a, .error b =>
      if h : a = b then .isTrue (by rw [h]) else .isFalse (by intro he; cases he; exact h rfl)
    | .error _, .ok _ => .isFalse (by intro he; cases he)
    | .ok _, .error _ => .isFalse (by intro he; cases he)
    | .ok a, .ok b =>
      if h : a = b then .isTrue (by rw [h]) else .isFalse (by intro he; cases he; exact h rfl)

/-- `np.searchsorted(a, v)` (default `side='left'`) on an ascending list:
index of the first element `≥ v`, i.e. the number of leading elements `< v`. -/
def searchsorted : List ℚ → ℚ → Nat
  | [], _ => 0
  | a :: t, v => if a < v then searchsorted t v + 1 else 0

/-- Python / numpy sequence indexing `a[i]` for an `Int` index: a negative
index counts from the end (one wrap only); anything else out of range is an
`IndexError`, modelled as `none`. -/
def pyGet (a : List ℚ) (i : Int) : Option ℚ :=
  if i < 0 then
    if i + a.length < 0 then none else a.get? (i + a.length).toNat
  else a.get? i.toNat

/-- The `RectangularGrid` data of `interpolation.py`: the `(y_coords, x_coords)`
point arrays and the optional value array (row-major, `values[iy][ix]`). -/
structure RectangularGrid where
  yCoords : List ℚ
  xCoords : List ℚ
  values : Option (List (List ℚ))

/-- `RectangularGrid.__init__`: rejects an empty axis, and rejects a supplied
value array whose shape differs from `(len(y_coords), len(x_coords))`. -/
def mkGrid (points : List ℚ × List ℚ) (values : Option (List (List ℚ))) :
    Except String RectangularGrid :=
  if points.1.length = 0 ∨ points.2.length = 0 then .error "Empty grid"
  else
    match values with
    | none => .ok ⟨points.1, points.2, none⟩
    | some v =>
      if v.length = points.1.length ∧ ∀ row ∈ v, row.length = points.2.length then
        .ok ⟨points.1, points.2, some v⟩
      else .error "Values and grid shape mismatch"

/-- `RectangularGrid.get_value(y, x)`: exact node lookup through one
`searchsorted` per axis, failing when values are absent or the point is not a
grid node. -/
def RectangularGrid.get_value (g : RectangularGrid) (y x : ℚ) : Except String ℚ :=
  match g.values with
  | none => .error "Trying to get value from grid with empty values"
  | some vals =>
    let iy := searchsorted g.yCoords y
    let ix := searchsorted g.xCoords x
    if ix < g.xCoords.length ∧ iy < g.yCoords.length then
      if g.xCoords.get? ix = some x ∧ g.yCoords.get? iy = some y then
        match (vals.get? iy).bind (fun row => row.get? ix) with
        | some v => .ok v
        | none => .error "index out of range"
      else .error "Point not found in grid nodes"
    else .error "Point not found in grid nodes"

/-- `RectangularGrid.find_bounding_cell(y, x)`: bounds check against the first
and last coordinate of each axis, then `left_bound = searchsorted(xs, x) - 1`
(possibly `-1`, which Python indexing wraps to the last element) and the
returned tuple `(x_left, y_down, x_right, y_up)`. -/
def RectangularGrid.find_bounding_cell (g : RectangularGrid) (y x : ℚ) :
    Except String (ℚ × ℚ × ℚ × ℚ) :=
  match pyGet g.xCoords 0, pyGet g.xCoords (-1), pyGet g.yCoords 0, pyGet g.yCoords (-1) with
  | some xlo, some xhi, some ylo, some yhi =>
    if xlo ≤ x ∧ x ≤ xhi ∧ ylo ≤ y ∧ y ≤ yhi then
      let lb : Int := (searchsorted g.xCoords x : Int) - 1
      let db : Int := (searchsorted g.yCoords y : Int) - 1
      match pyGet g.xCoords lb, pyGet g.yCoords db,
            pyGet g.xCoords (lb + 1), pyGet g.yCoords (db + 1) with
      | some l, some d, some r, some u => .ok (l, d, r, u)
      | _, _, _, _ => .error "index out of range"
    else .error "Point is out of grid bounds"
  | _, _, _, _ => .error "index out of range"

/-- The loop body of `BilinearInterpolator.interpolate` for one target point
`(y, x)`: bounding cell, the four corner values, then the four-way case split
(exact node / vertical line / horizontal line / general bilinear blend). -/
def interpolateAt (src : RectangularGrid) (y x : ℚ) : Except String ℚ := do
  let (left, down, right, up) ← src.find_bounding_cell y x
  let q11 ← src.get_value down left
  let q12 ← src.get_value up left
  let q21 ← src.get_value down right
  let q22 ← src.get_value up right
  if right = left ∧ up = down then
    src.get_value y x
  else if right = left then
    pure ((q11 * (up - y) + q12 * (y - down)) / (up - down))
  else if up = down then
    pure ((q11 * (right - x) + q21 * (x - left)) / (right - left))
  else
    pure ((q11 * (right - x) * (up - y)
        + q21 * (x - left) * (up - y)
        + q12 * (right - x) * (y - down)
        + q22 * (x - left) * (y - down)) / ((right - left) * (up - down)))

/-- `BilinearInterpolator.interpolate(target)`: the nested double loop over
`target.points[0]` (outer) and `target.points[1]` (inner); the first raised
exception aborts the whole call. -/
def interpolate (src tgt : RectangularGrid) : Except String (List (List ℚ)) :=
  tgt.yCoords.mapM (fun y => tgt.xCoords.mapM (fun x => interpolateAt src y x))

/-- Division that reports a zero divisor instead of dividing, used to show the
dispatch in `interpolateAt` never divides by zero. -/
def divE (a b : ℚ) : Except String ℚ :=
  if b = 0 then .error "division by zero" else .ok (a / b)

/-- `interpolateAt` with every division routed through `divE`: identical to the
source computation except that a zero divisor would surface as an error. -/
def interpolateAtChecked (src : RectangularGrid) (y x : ℚ) : Except String ℚ := do
  let (left, down, right, up) ← src.find_bounding_cell y x
  let q11 ← src.get_value down left
  let q12 ← src.get_value up left
  let q21 ← src.get_value down right
  let q22 ← src.get_value up right
  if right = left ∧ up = down then
    src.get_value y x
  else if right = left then
    divE (q11 * (up - y) + q12 * (y - down)) (up - down)
  else if up = down then
    divE (q11 * (right - x) + q21 * (x - left)) (right - left)
  else
    divE (q11 * (right - x) * (up - y)
        + q21 * (x - left) * (up - y)
        + q12 * (right - x) * (y - down)
        + q22 * (x - left) * (y - down)) ((right - left) * (up - down))

/-- `np.arange(start, stop, step)` over exact rationals: `ZeroDivisionError`
for a zero step, otherwise `max 0 ⌈(stop - start) / step⌉` equally spaced
values starting at `start`. -/
def arange (start stop step : ℚ) : Except String (List ℚ) :=
  if step = 0 then .error "division by zero"
  else .ok ((List.range (Int.toNat ⌈(stop - start) / step⌉)).map
    (fun (i : Nat) => start + (i : ℚ) * step))

/-- A decoded raster image: its pixel matrix together with the height and
width that `image.size` reports. -/
structure PImage where
  height : Nat
  width : Nat
  pixels : List (List ℚ)

/-- A `PImage` as PIL delivers it: the pixel matrix really has `height` rows
of `width` entries each. -/
abbrev imgWf (img : PImage) : Prop :=
  img.pixels.length = img.height ∧ ∀ row ∈ img.pixels, row.length = img.width

/-- `np.arange(n)`: the integer coordinates `0, 1, ..., n-1` as rationals. -/
def natCoords (n : Nat) : List ℚ := (List.range n).map (fun (i : Nat) => (i : ℚ))

/-- `RectangularGrid.from_image`: coordinates `0..height-1` and `0..width-1`
with the pixel samples as values, built through the validating constructor. -/
def from_image (img : PImage) : Except String RectangularGrid :=
  mkGrid (natCoords img.height, natCoords img.width) (some img.pixels)

/-- `resize_image(image, y_size, x_size, algorithm)` up to (but not including)
the final `uint8` PIL conversion: source grid from the image, target axes via
`np.arange(0, dim - 1, (dim - 1) / out_size)` (a zero `out_size` is Python's
`ZeroDivisionError` at the step computation), then the algorithm dispatch and
the interpolation producing the resized value array. -/
def resize_image (img : PImage) (y_size x_size : Nat) (algorithm : String) :
    Except String (List (List ℚ)) := do
  let src_grid ← from_image img
  let ystep ← divE ((img.height : ℚ) - 1) (y_size : ℚ)
  let y_grid ← arange 0 ((img.height : ℚ) - 1) ystep
  let xstep ← divE ((img.width : ℚ) - 1) (x_size : ℚ)
  let x_grid ← arange 0 ((img.width : ℚ) - 1) xstep
  if algorithm = "bilinear" then do
    let res_grid ← mkGrid (y_grid, x_grid) none
    interpolate src_grid res_grid
  else .error "unknown interpolation algorithm"

/-- The CLI `resize` command body (`cli.py`): positivity validation of the
`--width`/`--height` options, then `resize_image(img, y_size=width,
x_size=height, algorithm=algorithm)`. -/
def cliResize (img : PImage) (width height : Int) (algorithm : String) :
    Except String (List (List ℚ)) :=
  if width ≤ 0 ∨ height ≤ 0 then .error "Width and height must be positive integers"
  else resize_image img width.toNat height.toNat algorithm

/-- Strict ascent of a coordinate axis, the documented precondition of
`RectangularGrid`. -/
abbrev StrictAsc (l : List ℚ) : Prop := l.Pairwise (· < ·)

/-- Row-major lookup `vals[iy][ix]` in a value array. -/
def cell (vals : List (List ℚ)) (iy ix : Nat) : Option ℚ :=
  (vals.get? iy).bind (fun row => row.get? ix)

/-- The value array has exactly the grid's shape
`(len(y_coords), len(x_coords))`. -/
abbrev shapeOk (g : RectangularGrid) (vals : List (List ℚ)) : Prop :=
  vals.length = g.yCoords.length ∧ ∀ row ∈ vals, row.length = g.xCoords.length

/-- The sample 3×3 grid of the test-suite and of the spec's concrete
scenario 1. -/
def sampleGrid : RectangularGrid :=
  ⟨[0, 1, 2], [0, 1, 2], some [[1, 2, 3], [4, 5, 6], [7, 8, 9]]⟩

/-! ## Facts about `searchsorted` and `pyGet` -/

theorem searchsorted_le_length (l : List ℚ) (v : ℚ) : searchsorted l v ≤ l.length := by
  induction l with
  | nil => simp [searchsorted]
  | cons a t ih =>
    simp only [searchsorted, List.length_cons]
    split
    · omega
    · omega

theorem searchsorted_le_of_le {l : List ℚ} (hs : StrictAsc l) {i : Nat} {b v : ℚ}
    (hb : l.get? i = some b) (hv : v ≤ b) : searchsorted l v ≤ i := by
  induction l generalizing i with
  | nil => simp at hb
  | cons a t ih =>
    rcases List.pairwise_cons.mp hs with ⟨ha, ht⟩
    match i with
    | 0 =>
      simp only [List.get?] at hb
      cases hb
      simp only [searchsorted]
      rw [if_neg (by exact not_lt.mpr hv)]
    | j + 1 =>
      simp only [List.get?] at hb
      simp only [searchsorted]
      split
      · exact Nat.succ_le_succ (ih ht hb)
      · omega

theorem lt_searchsorted_of_lt {l : List ℚ} (hs : StrictAsc l) {i : Nat} {a v : ℚ}
    (ha : l.get? i = some a) (hv : a < v) : i < searchsorted l v := by
  induction l generalizing i with
  | nil => simp at ha
  | cons c t ih =>
    rcases List.pairwise_cons.mp hs with ⟨hc, ht⟩
    match i with
    | 0 =>
      simp only [List.get?] at ha
      cases ha
      simp only [searchsorted]
      rw [if_pos hv]
      omega
    | j + 1 =>
      simp only [List.get?] at ha
      have hmem : a ∈ t := List.get?_mem ha
      have hcv : c < v := lt_trans (hc a hmem) hv
      simp only [searchsorted]
      rw [if_pos hcv]
      exact Nat.succ_lt_succ (ih ht ha)

theorem searchsorted_head {l : List ℚ} {v : ℚ} (h : l.head? = some v) :
    searchsorted l v = 0 := by
  cases l with
  | nil => simp at h
  | cons a t =>
    simp only [List.head?] at h
    cases h
    simp [searchsorted]

theorem searchsorted_succ {l : List ℚ} (hs : StrictAsc l) {i : Nat} {a b v : ℚ}
    (ha : l.get? i = some a) (hb : l.get? (i + 1) = some b)
    (h1 : a < v) (h2 : v ≤ b) : searchsorted l v = i + 1 := by
  have hlo := lt_searchsorted_of_lt hs ha h1
  have hhi := searchsorted_le_of_le hs hb h2
  omega

theorem searchsorted_get {l : List ℚ} (hs : StrictAsc l) {i : Nat} {v : ℚ}
    (h : l.get? i = some v) : searchsorted l v = i := by
  match i with
  | 0 =>
    rw [List.get?_zero] at h
    exact searchsorted_head h
  | j + 1 =>
    have hlt : j < l.length := by
      rcases List.get?_eq_some.mp h with ⟨hj, _⟩
      omega
    have ha : l.get? j = some (l.get ⟨j, hlt⟩) := List.get?_eq_get hlt
    have hav : l.get ⟨j, hlt⟩ < v := by
      rcases List.get?_eq_some.mp h with ⟨hj, hget⟩
      have := List.pairwise_iff_get.mp hs ⟨j, hlt⟩ ⟨j + 1, hj⟩ (by simp)
      rw [hget] at this
      exact this
    exact searchsorted_succ hs ha h hav (le_refl v)

theorem sorted_get_le {l : List ℚ} (hs : StrictAsc l) {i j : Nat} {a b : ℚ}
    (ha : l.get? i = some a) (hb : l.get? j = some b) (hij : i ≤ j) : a ≤ b := by
  rcases List.get?_eq_some.mp ha with ⟨hi, hga⟩
  rcases List.get?_eq_some.mp hb with ⟨hj, hgb⟩
  rcases Nat.lt_or_ge i j with h | h
  · have := List.pairwise_iff_get.mp hs ⟨i, hi⟩ ⟨j, hj⟩ h
    rw [hga, hgb] at this
    exact le_of_lt this
  · have hji : i = j := le_antisymm hij h
    subst hji
    rw [hga] at hgb
    exact le_of_eq hgb

theorem sorted_get_inj {l : List ℚ} (hs : StrictAsc l) {i j : Nat} {a : ℚ}
    (ha : l.get? i = some a) (hb : l.get? j = some a) : i = j := by
  by_contra hne
  rcases List.get?_eq_some.mp ha with ⟨hi, hga⟩
  rcases List.get?_eq_some.mp hb with ⟨hj, hgb⟩
  rcases Nat.lt_or_ge i j with h | h
  · have := List.pairwise_iff_get.mp hs ⟨i, hi⟩ ⟨j, hj⟩ h
    rw [hga, hgb] at this
    exact absurd this (lt_irrefl a)
  · have hlt : j < i := by omega
    have := List.pairwise_iff_get.mp hs ⟨j, hj⟩ ⟨i, hi⟩ hlt
    rw [hga, hgb] at this
    exact absurd this (lt_irrefl a)

theorem pyGet_ofNat (a : List ℚ) (i : Nat) : pyGet a (i : Int) = a.get? i := by
  simp only [pyGet]
  rw [if_neg (by omega)]
  simp

theorem pyGet_neg_one (a : List ℚ) : pyGet a (-1) = a.getLast? := by
  simp only [pyGet]
  rw [if_pos (by omega)]
  cases a with
  | nil => simp
  | cons c t =>
    rw [if_neg (by simp)]
    rw [List.getLast?_eq_get?]
    congr 1
    simp

theorem pyGet_zero (a : List ℚ) : pyGet a (0 : Int) = a.head? := by
  simp only [pyGet]
  rw [if_neg (by omega)]
  rw [show Int.toNat 0 = 0 from rfl]
  exact List.get?_zero a

/-! ## Node lookup through `get_value` -/

theorem cell_exists {g : RectangularGrid} {vals : List (List ℚ)}
    (hshape : shapeOk g vals) {iy ix : Nat}
    (hiy : iy < g.yCoords.length) (hix : ix < g.xCoords.length) :
    ∃ q, cell vals iy ix = some q := by
  rcases hshape with ⟨hlen, hrow⟩
  have h1 : iy < vals.length := by omega
  have hr : vals.get? iy = some (vals.get ⟨iy, h1⟩) := List.get?_eq_get h1
  have h2 : ix < (vals.get ⟨iy, h1⟩).length := by
    rw [hrow (vals.get ⟨iy, h1⟩) (vals.get_mem iy h1)]
    exact hix
  refine ⟨(vals.get ⟨iy, h1⟩).get ⟨ix, h2⟩, ?_⟩
  simp only [cell, hr, Option.bind_some]
  exact List.get?_eq_get h2

theorem get_value_node {g : RectangularGrid}
    (hsx : StrictAsc g.xCoords) (hsy : StrictAsc g.yCoords)
    {vals : List (List ℚ)} (hv : g.values = some vals)
    {iy ix : Nat} {cy cx q : ℚ}
    (hy : g.yCoords.get? iy = some cy) (hx : g.xCoords.get? ix = some cx)
    (hq : cell vals iy ix = some q) : g.get_value cy cx = .ok q := by
  have hssy := searchsorted_get hsy hy
  have hssx := searchsorted_get hsx hx
  have hixlen : ix < g.xCoords.length := by
    rcases List.get?_eq_some.mp hx with ⟨h, _⟩; exact h
  have hiylen : iy < g.yCoords.length := by
    rcases List.get?_eq_some.mp hy with ⟨h, _⟩; exact h
  unfold RectangularGrid.get_value
  rw [hv]
  simp only [hssx, hssy]
  rw [if_pos ⟨hixlen, hiylen⟩]
  rw [if_pos ⟨hx, hy⟩]
  unfold cell at hq
  rw [hq]

/-! ## The bounding-cell search on an in-bounds query -/

theorem length_pos_of_head? {l : List ℚ} {a : ℚ} (h : l.head? = some a) :
    0 < l.length := by
  cases l with
  | nil => simp at h
  | cons c t => simp

theorem fbc_ok_spec (g : RectangularGrid)
    (hsx : StrictAsc g.xCoords) (hsy : StrictAsc g.yCoords)
    {y x xlo xhi ylo yhi : ℚ}
    (hx0 : g.xCoords.head? = some xlo) (hx1 : g.xCoords.getLast? = some xhi)
    (hy0 : g.yCoords.head? = some ylo) (hy1 : g.yCoords.getLast? = some yhi)
    (hbx : xlo ≤ x ∧ x ≤ xhi) (hby : ylo ≤ y ∧ y ≤ yhi) :
    ∃ il id' l d r u,
      g.find_bounding_cell y x = .ok (l, d, r, u) ∧
      g.xCoords.get? il = some l ∧ g.yCoords.get? id' = some d ∧
      g.xCoords.get? (searchsorted g.xCoords x) = some r ∧
      g.yCoords.get? (searchsorted g.yCoords y) = some u ∧
      (searchsorted g.xCoords x = 0 → il = g.xCoords.length - 1) ∧
      (∀ s, searchsorted g.xCoords x = s + 1 → il = s) ∧
      (searchsorted g.yCoords y = 0 → id' = g.yCoords.length - 1) ∧
      (∀ s, searchsorted g.yCoords y = s + 1 → id' = s) := by
  have hlenx : 0 < g.xCoords.length := length_pos_of_head? hx0
  have hleny : 0 < g.yCoords.length := length_pos_of_head? hy0
  have hx1g : g.xCoords.get? (g.xCoords.length - 1) = some xhi := by
    rw [← List.getLast?_eq_get?]; exact hx1
  have hy1g : g.yCoords.get? (g.yCoords.length - 1) = some yhi := by
    rw [← List.getLast?_eq_get?]; exact hy1
  have hssx_le : searchsorted g.xCoords x ≤ g.xCoords.length - 1 :=
    searchsorted_le_of_le hsx hx1g hbx.2
  have hssy_le : searchsorted g.yCoords y ≤ g.yCoords.length - 1 :=
    searchsorted_le_of_le hsy hy1g hby.2
  have hssx_lt : searchsorted g.xCoords x < g.xCoords.length := by omega
  have hssy_lt : searchsorted g.yCoords y < g.yCoords.length := by omega
  have hr : g.xCoords.get? (searchsorted g.xCoords x) =
      some (g.xCoords.get ⟨searchsorted g.xCoords x, hssx_lt⟩) :=
    List.get?_eq_get hssx_lt
  have hu : g.yCoords.get? (searchsorted g.yCoords y) =
      some (g.yCoords.get ⟨searchsorted g.yCoords y, hssy_lt⟩) :=
    List.get?_eq_get hssy_lt
  -- the left / down index and its pyGet equation
  have hL : ∃ il l, g.xCoords.get? il = some l ∧
      pyGet g.xCoords ((searchsorted g.xCoords x : Int) - 1) = some l ∧
      (searchsorted g.xCoords x = 0 → il = g.xCoords.length - 1) ∧
      (∀ s, searchsorted g.xCoords x = s + 1 → il = s) := by
    cases hss : searchsorted g.xCoords x with
    | zero =>
      refine ⟨g.xCoords.length - 1, xhi, hx1g, ?_, fun _ => rfl, fun s hs => by omega⟩
      rw [show ((0 : Nat) : Int) - 1 = -1 by simp]
      rw [pyGet_neg_one]
      exact hx1
    | succ s =>
      have hslt : s < g.xCoords.length := by omega
      refine ⟨s, g.xCoords.get ⟨s, hslt⟩, List.get?_eq_get hslt, ?_, by omega,
        fun t ht => by omega⟩
      rw [show ((s + 1 : Nat) : Int) - 1 = ((s : Nat) : Int) by push_cast; ring]
      rw [pyGet_ofNat]
      exact List.get?_eq_get hslt
  have hD : ∃ id' d, g.yCoords.get? id' = some d ∧
      pyGet g.yCoords ((searchsorted g.yCoords y : Int) - 1) = some d ∧
      (searchsorted g.yCoords y = 0 → id' = g.yCoords.length - 1) ∧
      (∀ s, searchsorted g.yCoords y = s + 1 → id' = s) := by
    cases hss : searchsorted g.yCoords y with
    | zero =>
      refine ⟨g.yCoords.length - 1, yhi, hy1g, ?_, fun _ => rfl, fun s hs => by omega⟩
      rw [show ((0 : Nat) : Int) - 1 = -1 by simp]
      rw [pyGet_neg_one]
      exact hy1
    | succ s =>
      have hslt : s < g.yCoords.length := by omega
      refine ⟨s, g.yCoords.get ⟨s, hslt⟩, List.get?_eq_get hslt, ?_, by omega,
        fun t ht => by omega⟩
      rw [show ((s + 1 : Nat) : Int) - 1 = ((s : Nat) : Int) by push_cast; ring]
      rw [pyGet_ofNat]
      exact List.get?_eq_get hslt
  rcases hL with ⟨il, l, hil, hpL, hil0, hils⟩
  rcases hD with ⟨id', d, hid, hpD, hid0, hids⟩
  have hpR : pyGet g.xCoords ((searchsorted g.xCoords x : Int) - 1 + 1) =
      some (g.xCoords.get ⟨searchsorted g.xCoords x, hssx_lt⟩) := by
    rw [show ((searchsorted g.xCoords x : Nat) : Int) - 1 + 1 =
        ((searchsorted g.xCoords x : Nat) : Int) by ring]
    rw [pyGet_ofNat]
    exact hr
  have hpU : pyGet g.yCoords ((searchsorted g.yCoords y : Int) - 1 + 1) =
      some (g.yCoords.get ⟨searchsorted g.yCoords y, hssy_lt⟩) := by
    rw [show ((searchsorted g.yCoords y : Nat) : Int) - 1 + 1 =
        ((searchsorted g.yCoords y : Nat) : Int) by ring]
    rw [pyGet_ofNat]
    exact hu
  refine ⟨il, id', l, d, g.xCoords.get ⟨searchsorted g.xCoords x, hssx_lt⟩,
    g.yCoords.get ⟨searchsorted g.yCoords y, hssy_lt⟩,
    ?_, hil, hid, hr, hu, hil0, hils, hid0, hids⟩
  unfold RectangularGrid.find_bounding_cell
  rw [pyGet_zero, hx0, pyGet_neg_one, hx1, pyGet_zero, hy0, pyGet_neg_one, hy1]
  dsimp only
  rw [if_pos ⟨hbx.1, hbx.2, hby.1, hby.2⟩]
  rw [hpL, hpD, hpR, hpU]

/-! ## Facts about `mapM` over `Except` -/

theorem ebind_ok {α β : Type} (a : α) (f : α → Except String β) :
    (Except.ok a >>= f) = f a := rfl

theorem ebind_error {α β : Type} (e : String) (f : α → Except String β) :
    ((Except.error e : Except String α) >>= f) = .error e := rfl

theorem mapM_eq_ok_of_get {α β : Type} (f : α → Except String β) :
    ∀ (l : List α) (m : List β), l.length = m.length →
      (∀ i a b, l.get? i = some a → m.get? i = some b → f a = .ok b) →
      l.mapM f = .ok m := by
  intro l
  induction l with
  | nil =>
    intro m hlen _
    cases m with
    | nil => rfl
    | cons b bm => simp at hlen
  | cons a t ih =>
    intro m hlen hget
    cases m with
    | nil => simp at hlen
    | cons b bm =>
      rw [List.mapM_cons]
      have h0 : f a = .ok b := hget 0 a b rfl rfl
      have ht : t.mapM f = .ok bm := by
        apply ih bm (by simpa using hlen)
        intro i x y hx hy
        exact hget (i + 1) x y hx hy
      rw [h0, ht]
      rfl

theorem mapM_ok_of_forall {α β : Type} (f : α → Except String β) (l : List α)
    (h : ∀ a ∈ l, ∃ b, f a = .ok b) :
    ∃ m, l.mapM f = .ok m ∧ m.length = l.length ∧
      ∀ b ∈ m, ∃ a ∈ l, f a = .ok b := by
  induction l with
  | nil => exact ⟨[], rfl, rfl, by simp⟩
  | cons a t ih =>
    rcases h a (List.mem_cons_self a t) with ⟨b, hb⟩
    rcases ih (fun x hx => h x (List.mem_cons_of_mem a hx)) with ⟨m, hm, hlen, hmem⟩
    refine ⟨b :: m, ?_, by simp [hlen], ?_⟩
    · rw [List.mapM_cons, hb, hm]
      rfl
    · intro c hc
      rcases List.mem_cons.mp hc with hce | hcm
      · exact ⟨a, List.mem_cons_self a t, hce ▸ hb⟩
      · rcases hmem c hcm with ⟨x, hx, hfx⟩
        exact ⟨x, List.mem_cons_of_mem a hx, hfx⟩

theorem mapM_ok_forall_ok {α β : Type} (f : α → Except String β) :
    ∀ (l : List α) (m : List β), l.mapM f = .ok m →
      ∀ a ∈ l, ∃ b, f a = .ok b := by
  intro l
  induction l with
  | nil => intro m _ a ha; simp at ha
  | cons c t ih =>
    intro m hm a ha
    rw [List.mapM_cons] at hm
    cases hfc : f c with
    | error e => rw [hfc] at hm; simp [ebind_error] at hm
    | ok b =>
      rw [hfc, ebind_ok] at hm
      cases hmt : t.mapM f with
      | error e => rw [hmt] at hm; simp [ebind_error] at hm
      | ok bm =>
        rcases List.mem_cons.mp ha with hac | hat
        · exact ⟨b, hac ▸ hfc⟩
        · exact ih bm hmt a hat

/-! ## Interpolation at a grid node -/

theorem epure_eq_ok {α : Type} (a : α) : (pure a : Except String α) = .ok a := rfl

theorem interpolateAt_node (g : RectangularGrid)
    (hsx : StrictAsc g.xCoords) (hsy : StrictAsc g.yCoords)
    {vals : List (List ℚ)} (hv : g.values = some vals) (hshape : shapeOk g vals)
    {iy ix : Nat} {y x q : ℚ}
    (hy : g.yCoords.get? iy = some y) (hx : g.xCoords.get? ix = some x)
    (hq : cell vals iy ix = some q) :
    interpolateAt g y x = .ok q := by
  have hixlt : ix < g.xCoords.length := by
    rcases List.get?_eq_some.mp hx with ⟨h, _⟩; exact h
  have hiylt : iy < g.yCoords.length := by
    rcases List.get?_eq_some.mp hy with ⟨h, _⟩; exact h
  have hlx : 0 < g.xCoords.length := by omega
  have hly : 0 < g.yCoords.length := by omega
  -- the bounds check passes: x and y lie between the first and last coordinates
  have hx0 : g.xCoords.head? = some (g.xCoords.get ⟨0, hlx⟩) := by
    rw [← List.get?_zero]; exact List.get?_eq_get hlx
  have hy0 : g.yCoords.head? = some (g.yCoords.get ⟨0, hly⟩) := by
    rw [← List.get?_zero]; exact List.get?_eq_get hly
  have hlx1 : g.xCoords.length - 1 < g.xCoords.length := by omega
  have hly1 : g.yCoords.length - 1 < g.yCoords.length := by omega
  have hx1 : g.xCoords.getLast? = some (g.xCoords.get ⟨g.xCoords.length - 1, hlx1⟩) := by
    rw [List.getLast?_eq_get?]; exact List.get?_eq_get hlx1
  have hy1 : g.yCoords.getLast? = some (g.yCoords.get ⟨g.yCoords.length - 1, hly1⟩) := by
    rw [List.getLast?_eq_get?]; exact List.get?_eq_get hly1
  have hbx : g.xCoords.get ⟨0, hlx⟩ ≤ x ∧ x ≤ g.xCoords.get ⟨g.xCoords.length - 1, hlx1⟩ :=
    ⟨sorted_get_le hsx (List.get?_eq_get hlx) hx (by omega),
     sorted_get_le hsx hx (List.get?_eq_get hlx1) (by omega)⟩
  have hby : g.yCoords.get ⟨0, hly⟩ ≤ y ∧ y ≤ g.yCoords.get ⟨g.yCoords.length - 1, hly1⟩ :=
    ⟨sorted_get_le hsy (List.get?_eq_get hly) hy (by omega),
     sorted_get_le hsy hy (List.get?_eq_get hly1) (by omega)⟩
  rcases fbc_ok_spec g hsx hsy hx0 hx1 hy0 hy1 hbx hby with
    ⟨il, id', l, d, r, u, hfbc, hil, hid, hr, hu, -, -, -, -⟩
  -- at a node the search returns the node index, so the cell has x on its
  -- right edge and y on its upper edge
  have hssx : searchsorted g.xCoords x = ix := searchsorted_get hsx hx
  have hssy : searchsorted g.yCoords y = iy := searchsorted_get hsy hy
  rw [hssx, hx] at hr
  rw [hssy, hy] at hu
  have hxr : x = r := by injection hr
  have hyu : y = u := by injection hu
  subst hxr
  subst hyu
  have hillt : il < g.xCoords.length := by
    rcases List.get?_eq_some.mp hil with ⟨h, _⟩; exact h
  have hidlt : id' < g.yCoords.length := by
    rcases List.get?_eq_some.mp hid with ⟨h, _⟩; exact h
  rcases cell_exists hshape hidlt hillt with ⟨q11v, h11⟩
  rcases cell_exists hshape hiylt hillt with ⟨q12v, h12⟩
  rcases cell_exists hshape hidlt hixlt with ⟨q21v, h21⟩
  have hv11 : g.get_value d l = .ok q11v := get_value_node hsx hsy hv hid hil h11
  have hv12 : g.get_value y l = .ok q12v := get_value_node hsx hsy hv hy hil h12
  have hv21 : g.get_value d x = .ok q21v := get_value_node hsx hsy hv hid hx h21
  have hv22 : g.get_value y x = .ok q := get_value_node hsx hsy hv hy hx hq
  simp only [interpolateAt, hfbc, ebind_ok, hv11, hv12, hv21, hv22]
  by_cases hrl : x = l
  · by_cases hud : y = d
    · rw [if_pos ⟨hrl, hud⟩]
    · rw [if_neg (fun h => hud h.2), if_pos hrl]
      -- blend along the vertical grid line collapses to q12 = q
      have hile : il = ix := sorted_get_inj hsx hil (hrl ▸ hx)
      rw [hile] at h12
      rw [h12] at hq
      have hq12 : q12v = q := by injection hq
      rw [epure_eq_ok, hq12]
      congr 1
      rw [sub_self, mul_zero, zero_add]
      exact mul_div_cancel_right₀ q (sub_ne_zero.mpr hud)
  · rw [if_neg (fun h => hrl h.1)]
    by_cases hud : y = d
    · rw [if_neg hrl, if_pos hud]
      have hide : id' = iy := sorted_get_inj hsy hid (hud ▸ hy)
      rw [hide] at h21
      rw [h21] at hq
      have hq21 : q21v = q := by injection hq
      rw [epure_eq_ok, hq21]
      congr 1
      rw [sub_self, mul_zero, zero_add]
      exact mul_div_cancel_right₀ q (sub_ne_zero.mpr hrl)
    · rw [if_neg hrl, if_neg hud, epure_eq_ok]
      congr 1
      have hnum : q11v * (x - x) * (y - y) + q21v * (x - l) * (y - y)
          + q12v * (x - x) * (y - d) + q * (x - l) * (y - d)
          = q * ((x - l) * (y - d)) := by ring
      rw [hnum]
      exact mul_div_cancel_right₀ q
        (mul_ne_zero (sub_ne_zero.mpr hrl) (sub_ne_zero.mpr hud))

/-! ## Interpolation strictly inside a cell -/

theorem interpolateAt_inside (g : RectangularGrid)
    (hsx : StrictAsc g.xCoords) (hsy : StrictAsc g.yCoords)
    {vals : List (List ℚ)} (hv : g.values = some vals) (hshape : shapeOk g vals)
    {ix iy : Nat} {xl xr yd yu : ℚ}
    (hxl : g.xCoords.get? ix = some xl) (hxr : g.xCoords.get? (ix + 1) = some xr)
    (hyd : g.yCoords.get? iy = some yd) (hyu : g.yCoords.get? (iy + 1) = some yu)
    {x y : ℚ} (hx : xl < x ∧ x < xr) (hy : yd < y ∧ y < yu)
    {q11 q12 q21 q22 : ℚ}
    (h11 : cell vals iy ix = some q11) (h12 : cell vals (iy + 1) ix = some q12)
    (h21 : cell vals iy (ix + 1) = some q21) (h22 : cell vals (iy + 1) (ix + 1) = some q22) :
    interpolateAt g y x = .ok
      ((q11 * (xr - x) * (yu - y) + q21 * (x - xl) * (yu - y)
        + q12 * (xr - x) * (y - yd) + q22 * (x - xl) * (y - yd))
       / ((xr - xl) * (yu - yd))) := by
  have hixlt : ix + 1 < g.xCoords.length := by
    rcases List.get?_eq_some.mp hxr with ⟨h, _⟩; exact h
  have hiylt : iy + 1 < g.yCoords.length := by
    rcases List.get?_eq_some.mp hyu with ⟨h, _⟩; exact h
  have hlx : 0 < g.xCoords.length := by omega
  have hly : 0 < g.yCoords.length := by omega
  have hx0 : g.xCoords.head? = some (g.xCoords.get ⟨0, hlx⟩) := by
    rw [← List.get?_zero]; exact List.get?_eq_get hlx
  have hy0 : g.yCoords.head? = some (g.yCoords.get ⟨0, hly⟩) := by
    rw [← List.get?_zero]; exact List.get?_eq_get hly
  have hlx1 : g.xCoords.length - 1 < g.xCoords.length := by omega
  have hly1 : g.yCoords.length - 1 < g.yCoords.length := by omega
  have hx1 : g.xCoords.getLast? = some (g.xCoords.get ⟨g.xCoords.length - 1, hlx1⟩) := by
    rw [List.getLast?_eq_get?]; exact List.get?_eq_get hlx1
  have hy1 : g.yCoords.getLast? = some (g.yCoords.get ⟨g.yCoords.length - 1, hly1⟩) := by
    rw [List.getLast?_eq_get?]; exact List.get?_eq_get hly1
  have hbx : g.xCoords.get ⟨0, hlx⟩ ≤ x ∧ x ≤ g.xCoords.get ⟨g.xCoords.length - 1, hlx1⟩ :=
    ⟨le_trans (sorted_get_le hsx (List.get?_eq_get hlx) hxl (by omega)) (le_of_lt hx.1),
     le_trans (le_of_lt hx.2) (sorted_get_le hsx hxr (List.get?_eq_get hlx1) (by omega))⟩
  have hby : g.yCoords.get ⟨0, hly⟩ ≤ y ∧ y ≤ g.yCoords.get ⟨g.yCoords.length - 1, hly1⟩ :=
    ⟨le_trans (sorted_get_le hsy (List.get?_eq_get hly) hyd (by omega)) (le_of_lt hy.1),
     le_trans (le_of_lt hy.2) (sorted_get_le hsy hyu (List.get?_eq_get hly1) (by omega))⟩
  rcases fbc_ok_spec g hsx hsy hx0 hx1 hy0 hy1 hbx hby with
    ⟨il, id', l, d, r, u, hfbc, hil, hid, hr, hu, -, hils, -, hids⟩
  have hssx : searchsorted g.xCoords x = ix + 1 :=
    searchsorted_succ hsx hxl hxr hx.1 (le_of_lt hx.2)
  have hssy : searchsorted g.yCoords y = iy + 1 :=
    searchsorted_succ hsy hyd hyu hy.1 (le_of_lt hy.2)
  rw [hssx, hxr] at hr
  rw [hssy, hyu] at hu
  have hxrr : xr = r := by injection hr
  have hyuu : yu = u := by injection hu
  subst hxrr
  subst hyuu
  have hilx : il = ix := hils ix hssx
  have hidy : id' = iy := hids iy hssy
  subst hilx
  subst hidy
  rw [hxl] at hil
  rw [hyd] at hid
  have hxll : xl = l := by injection hil
  have hydd : yd = d := by injection hid
  subst hxll
  subst hydd
  have hv11 : g.get_value yd xl = .ok q11 := get_value_node hsx hsy hv hyd hxl h11
  have hv12 : g.get_value yu xl = .ok q12 := get_value_node hsx hsy hv hyu hxl h12
  have hv21 : g.get_value yd xr = .ok q21 := get_value_node hsx hsy hv hyd hxr h21
  have hv22 : g.get_value yu xr = .ok q22 := get_value_node hsx hsy hv hyu hxr h22
  have hrl : ¬(xr = xl) := by
    intro h
    exact absurd (h ▸ hx.1) (not_lt.mpr (le_of_lt (h ▸ hx.2)))
  have hud : ¬(yu = yd) := by
    intro h
    exact absurd (h ▸ hy.1) (not_lt.mpr (le_of_lt (h ▸ hy.2)))
  simp only [interpolateAt, hfbc, ebind_ok, hv11, hv12, hv21, hv22]
  rw [if_neg (fun h => hrl h.1), if_neg hrl, if_neg hud]
  rfl

/-- Bounds for a four-point convex combination: with nonnegative weights
summing to one, the blend lies between the least and the greatest of the
four values contributing to it. -/
theorem convex_comb_bounds (q1 q2 q3 q4 w1 w2 w3 w4 : ℚ)
    (h1 : 0 ≤ w1) (h2 : 0 ≤ w2) (h3 : 0 ≤ w3) (h4 : 0 ≤ w4)
    (hs : w1 + w2 + w3 + w4 = 1) :
    min (min q1 q2) (min q3 q4) ≤ q1 * w1 + q2 * w2 + q3 * w3 + q4 * w4 ∧
    q1 * w1 + q2 * w2 + q3 * w3 + q4 * w4 ≤ max (max q1 q2) (max q3 q4) := by
  have hm1 : min (min q1 q2) (min q3 q4) ≤ q1 :=
    le_trans (min_le_left _ _) (min_le_left _ _)
  have hm2 : min (min q1 q2) (min q3 q4) ≤ q2 :=
    le_trans (min_le_left _ _) (min_le_right _ _)
  have hm3 : min (min q1 q2) (min q3 q4) ≤ q3 :=
    le_trans (min_le_right _ _) (min_le_left _ _)
  have hm4 : min (min q1 q2) (min q3 q4) ≤ q4 :=
    le_trans (min_le_right _ _) (min_le_right _ _)
  have hM1 : q1 ≤ max (max q1 q2) (max q3 q4) :=
    le_trans (le_max_left _ _) (le_max_left _ _)
  have hM2 : q2 ≤ max (max q1 q2) (max q3 q4) :=
    le_trans (le_max_right _ _) (le_max_left _ _)
  have hM3 : q3 ≤ max (max q1 q2) (max q3 q4) :=
    le_trans (le_max_left _ _) (le_max_right _ _)
  have hM4 : q4 ≤ max (max q1 q2) (max q3 q4) :=
    le_trans (le_max_right _ _) (le_max_right _ _)
  constructor
  · have e : min (min q1 q2) (min q3 q4)
        = min (min q1 q2) (min q3 q4) * w1 + min (min q1 q2) (min q3 q4) * w2
          + min (min q1 q2) (min q3 q4) * w3 + min (min q1 q2) (min q3 q4) * w4 := by
      rw [show min (min q1 q2) (min q3 q4) * w1 + min (min q1 q2) (min q3 q4) * w2
          + min (min q1 q2) (min q3 q4) * w3 + min (min q1 q2) (min q3 q4) * w4
          = min (min q1 q2) (min q3 q4) * (w1 + w2 + w3 + w4) by ring, hs, mul_one]
    rw [e]
    exact add_le_add (add_le_add (add_le_add
      (mul_le_mul_of_nonneg_right hm1 h1) (mul_le_mul_of_nonneg_right hm2 h2))
      (mul_le_mul_of_nonneg_right hm3 h3)) (mul_le_mul_of_nonneg_right hm4 h4)
  · have e : max (max q1 q2) (max q3 q4)
        = max (max q1 q2) (max q3 q4) * w1 + max (max q1 q2) (max q3 q4) * w2
          + max (max q1 q2) (max q3 q4) * w3 + max (max q1 q2) (max q3 q4) * w4 := by
      rw [show max (max q1 q2) (max q3 q4) * w1 + max (max q1 q2) (max q3 q4) * w2
          + max (max q1 q2) (max q3 q4) * w3 + max (max q1 q2) (max q3 q4) * w4
          = max (max q1 q2) (max q3 q4) * (w1 + w2 + w3 + w4) by ring, hs, mul_one]
    rw [e]
    exact add_le_add (add_le_add (add_le_add
      (mul_le_mul_of_nonneg_right hM1 h1) (mul_le_mul_of_nonneg_right hM2 h2))
      (mul_le_mul_of_nonneg_right hM3 h3)) (mul_le_mul_of_nonneg_right hM4 h4)

/-! ## Totality on in-bounds queries, failure out of bounds -/

theorem interpolateAt_total (g : RectangularGrid)
    (hsx : StrictAsc g.xCoords) (hsy : StrictAsc g.yCoords)
    {vals : List (List ℚ)} (hv : g.values = some vals) (hshape : shapeOk g vals)
    {x y xlo xhi ylo yhi : ℚ}
    (hx0 : g.xCoords.head? = some xlo) (hx1 : g.xCoords.getLast? = some xhi)
    (hy0 : g.yCoords.head? = some ylo) (hy1 : g.yCoords.getLast? = some yhi)
    (hbx : xlo ≤ x ∧ x ≤ xhi) (hby : ylo ≤ y ∧ y ≤ yhi) :
    ∃ v, interpolateAt g y x = .ok v := by
  have hlenx : 0 < g.xCoords.length := length_pos_of_head? hx0
  have hleny : 0 < g.yCoords.length := length_pos_of_head? hy0
  have hx0g : g.xCoords.get? 0 = some xlo := by rw [List.get?_zero]; exact hx0
  have hy0g : g.yCoords.get? 0 = some ylo := by rw [List.get?_zero]; exact hy0
  have hx1g : g.xCoords.get? (g.xCoords.length - 1) = some xhi := by
    rw [← List.getLast?_eq_get?]; exact hx1
  have hy1g : g.yCoords.get? (g.yCoords.length - 1) = some yhi := by
    rw [← List.getLast?_eq_get?]; exact hy1
  rcases fbc_ok_spec g hsx hsy hx0 hx1 hy0 hy1 hbx hby with
    ⟨il, id', l, d, r, u, hfbc, hil, hid, hr, hu, hil0, hils, hid0, hids⟩
  have hillt : il < g.xCoords.length := by
    rcases List.get?_eq_some.mp hil with ⟨h, _⟩; exact h
  have hidlt : id' < g.yCoords.length := by
    rcases List.get?_eq_some.mp hid with ⟨h, _⟩; exact h
  have hsxlt : searchsorted g.xCoords x < g.xCoords.length := by
    rcases List.get?_eq_some.mp hr with ⟨h, _⟩; exact h
  have hsylt : searchsorted g.yCoords y < g.yCoords.length := by
    rcases List.get?_eq_some.mp hu with ⟨h, _⟩; exact h
  rcases cell_exists hshape hidlt hillt with ⟨q11v, h11⟩
  rcases cell_exists hshape hsylt hillt with ⟨q12v, h12⟩
  rcases cell_exists hshape hidlt hsxlt with ⟨q21v, h21⟩
  rcases cell_exists hshape hsylt hsxlt with ⟨q22v, h22⟩
  have hv11 : g.get_value d l = .ok q11v := get_value_node hsx hsy hv hid hil h11
  have hv12 : g.get_value u l = .ok q12v := get_value_node hsx hsy hv hu hil h12
  have hv21 : g.get_value d r = .ok q21v := get_value_node hsx hsy hv hid hr h21
  have hv22 : g.get_value u r = .ok q22v := get_value_node hsx hsy hv hu hr h22
  by_cases hrl : r = l
  · -- a collapsed x-interval forces a single-coordinate x-axis, so x = r
    have hilss : il = searchsorted g.xCoords x := sorted_get_inj hsx hil (hrl ▸ hr)
    have hlen1x : g.xCoords.length = 1 ∧ searchsorted g.xCoords x = 0 := by
      cases hss : searchsorted g.xCoords x with
      | zero =>
        have h1 := hil0 hss
        constructor
        · omega
        · rfl
      | succ s =>
        have h1 := hils s hss
        omega
    have hxr : x = r := by
      have hlohi : xlo = xhi := by
        have : g.xCoords.get? 0 = g.xCoords.get? (g.xCoords.length - 1) := by
          rw [hlen1x.1]
        rw [hx0g, hx1g] at this
        injection this
      have hxeq : x = xlo := le_antisymm (hlohi ▸ hbx.2) hbx.1
      have : g.xCoords.get? (searchsorted g.xCoords x) = some xlo := by
        rw [hlen1x.2]; exact hx0g
      rw [hr] at this
      have : r = xlo := by injection this
      rw [hxeq, this]
    by_cases hud : u = d
    · have hidss : id' = searchsorted g.yCoords y := sorted_get_inj hsy hid (hud ▸ hu)
      have hlen1y : g.yCoords.length = 1 ∧ searchsorted g.yCoords y = 0 := by
        cases hss : searchsorted g.yCoords y with
        | zero =>
          have h1 := hid0 hss
          constructor
          · omega
          · rfl
        | succ s =>
          have h1 := hids s hss
          omega
      have hyu : y = u := by
        have hlohi : ylo = yhi := by
          have : g.yCoords.get? 0 = g.yCoords.get? (g.yCoords.length - 1) := by
            rw [hlen1y.1]
          rw [hy0g, hy1g] at this
          injection this
        have hyeq : y = ylo := le_antisymm (hlohi ▸ hby.2) hby.1
        have : g.yCoords.get? (searchsorted g.yCoords y) = some ylo := by
          rw [hlen1y.2]; exact hy0g
        rw [hu] at this
        have : u = ylo := by injection this
        rw [hyeq, this]
      refine ⟨q22v, ?_⟩
      simp only [interpolateAt, hfbc, ebind_ok, hv11, hv12, hv21, hv22]
      rw [if_pos ⟨hrl, hud⟩, hyu, hxr]
      exact hv22
    · refine ⟨(q11v * (u - y) + q12v * (y - d)) / (u - d), ?_⟩
      simp only [interpolateAt, hfbc, ebind_ok, hv11, hv12, hv21, hv22]
      rw [if_neg (fun h => hud h.2), if_pos hrl]
      rfl
  · by_cases hud : u = d
    · refine ⟨(q11v * (r - x) + q21v * (x - l)) / (r - l), ?_⟩
      simp only [interpolateAt, hfbc, ebind_ok, hv11, hv12, hv21, hv22]
      rw [if_neg (fun h => hrl h.1), if_neg hrl, if_pos hud]
      rfl
    · refine ⟨(q11v * (r - x) * (u - y) + q21v * (x - l) * (u - y)
        + q12v * (r - x) * (y - d) + q22v * (x - l) * (y - d)) / ((r - l) * (u - d)), ?_⟩
      simp only [interpolateAt, hfbc, ebind_ok, hv11, hv12, hv21, hv22]
      rw [if_neg (fun h => hrl h.1), if_neg hrl, if_neg hud]
      rfl

theorem fbc_oob (g : RectangularGrid) {xlo xhi ylo yhi : ℚ}
    (hx0 : g.xCoords.head? = some xlo) (hx1 : g.xCoords.getLast? = some xhi)
    (hy0 : g.yCoords.head? = some ylo) (hy1 : g.yCoords.getLast? = some yhi)
    {y x : ℚ} (h : ¬(xlo ≤ x ∧ x ≤ xhi ∧ ylo ≤ y ∧ y ≤ yhi)) :
    g.find_bounding_cell y x = .error "Point is out of grid bounds" := by
  unfold RectangularGrid.find_bounding_cell
  rw [pyGet_zero, hx0, pyGet_neg_one, hx1, pyGet_zero, hy0, pyGet_neg_one, hy1]
  dsimp only
  rw [if_neg h]

theorem interpolateAt_error {g : RectangularGrid} {y x : ℚ} {e : String}
    (h : g.find_bounding_cell y x = .error e) :
    interpolateAt g y x = .error e := by
  simp only [interpolateAt, h, ebind_error]

theorem interpolate_not_ok {g tgt : RectangularGrid} {y x : ℚ}
    (hy : y ∈ tgt.yCoords) (hx : x ∈ tgt.xCoords)
    (herr : ∀ v, interpolateAt g y x ≠ .ok v) :
    ∀ res, interpolate g tgt ≠ .ok res := by
  intro res hres
  rcases mapM_ok_forall_ok _ _ _ hres y hy with ⟨row, hrow⟩
  rcases mapM_ok_forall_ok _ _ _ hrow x hx with ⟨v, hv⟩
  exact herr v hv

/-! ## The resize pipeline -/

theorem natCoords_length (n : Nat) : (natCoords n).length = n := by
  simp [natCoords]

theorem natCoords_get {n i : Nat} (h : i < n) :
    (natCoords n).get? i = some (i : ℚ) := by
  simp [natCoords, List.get?_eq_getElem?, List.getElem?_range h]

theorem natCoords_sorted (n : Nat) : StrictAsc (natCoords n) :=
  (List.pairwise_lt_range n).map _ (fun _ _ h => by exact_mod_cast h)

theorem natCoords_head {n : Nat} (h : 0 < n) : (natCoords n).head? = some 0 := by
  rw [← List.get?_zero, natCoords_get h]
  simp

theorem natCoords_last {n : Nat} (h : 0 < n) :
    (natCoords n).getLast? = some ((n - 1 : Nat) : ℚ) := by
  rw [List.getLast?_eq_get?, natCoords_length]
  exact natCoords_get (by omega)

theorem mkGrid_ok_some {ys xs : List ℚ} {vals : List (List ℚ)}
    (hy : ys.length ≠ 0) (hx : xs.length ≠ 0)
    (hlen : vals.length = ys.length) (hrow : ∀ row ∈ vals, row.length = xs.length) :
    mkGrid (ys, xs) (some vals) = .ok ⟨ys, xs, some vals⟩ := by
  unfold mkGrid
  rw [if_neg (not_or.mpr ⟨hy, hx⟩)]
  dsimp only
  rw [if_pos ⟨hlen, hrow⟩]

theorem mkGrid_ok_none {ys xs : List ℚ}
    (hy : ys.length ≠ 0) (hx : xs.length ≠ 0) :
    mkGrid (ys, xs) none = .ok ⟨ys, xs, none⟩ := by
  unfold mkGrid
  rw [if_neg (not_or.mpr ⟨hy, hx⟩)]

theorem mapM_ok_length {α β : Type} (f : α → Except String β) :
    ∀ (l : List α) (m : List β), l.mapM f = .ok m → m.length = l.length := by
  intro l
  induction l with
  | nil =>
    intro m hm
    simp only [List.mapM_nil] at hm
    have : m = [] := by
      have h' : ([] : List β) = m := by injection hm
      exact h'.symm
    rw [this]
    rfl
  | cons c t ih =>
    intro m hm
    rw [List.mapM_cons] at hm
    cases hfc : f c with
    | error e => rw [hfc] at hm; simp [ebind_error] at hm
    | ok b =>
      rw [hfc, ebind_ok] at hm
      cases hmt : t.mapM f with
      | error e => rw [hmt] at hm; simp [ebind_error] at hm
      | ok bm =>
        rw [hmt, ebind_ok] at hm
        have hbm : b :: bm = m := by injection hm
        rw [← hbm, List.length_cons, ih bm hmt]
        rfl

theorem from_image_ok (img : PImage) (hwf : imgWf img)
    (hh : 0 < img.height) (hw : 0 < img.width) :
    from_image img = .ok ⟨natCoords img.height, natCoords img.width, some img.pixels⟩ := by
  unfold from_image
  apply mkGrid_ok_some
  · rw [natCoords_length]; omega
  · rw [natCoords_length]; omega
  · rw [natCoords_length]; exact hwf.1
  · intro row hr
    rw [natCoords_length]
    exact hwf.2 row hr

theorem arange_div {H : ℚ} {n : Nat} (hH : 0 < H) (hn : 1 ≤ n) :
    arange 0 H (H / (n : ℚ)) =
      .ok ((List.range n).map (fun (i : Nat) => 0 + (i : ℚ) * (H / (n : ℚ)))) := by
  have hn0 : ((n : ℚ)) ≠ 0 := Nat.cast_ne_zero.mpr (by omega)
  have hstep : H / (n : ℚ) ≠ 0 := div_ne_zero (ne_of_gt hH) hn0
  unfold arange
  rw [if_neg hstep]
  have harg : Int.toNat ⌈(H - 0) / (H / (n : ℚ))⌉ = n := by
    rw [sub_zero]
    rw [show H / (H / (n : ℚ)) = (n : ℚ) from by field_simp]
    rw [Int.ceil_natCast]
    exact Int.toNat_ofNat n
  rw [harg]

theorem arange_div_bounds {H : ℚ} {n : Nat} (hH : 0 < H) (hn : 1 ≤ n)
    {coords : List ℚ} (h : arange 0 H (H / (n : ℚ)) = .ok coords) :
    coords.length = n ∧ ∀ c ∈ coords, 0 ≤ c ∧ c < H := by
  rw [arange_div hH hn] at h
  have hc : (List.range n).map (fun (i : Nat) => 0 + (i : ℚ) * (H / (n : ℚ))) = coords := by
    injection h
  subst hc
  refine ⟨by simp, ?_⟩
  intro c hcmem
  rcases List.mem_map.mp hcmem with ⟨i, hi, hci⟩
  have hiln : i < n := List.mem_range.mp hi
  have hnp : (0 : ℚ) < (n : ℚ) := Nat.cast_pos.mpr (by omega)
  have hstep_pos : 0 < H / (n : ℚ) := div_pos hH hnp
  constructor
  · rw [← hci]
    have : 0 ≤ (i : ℚ) * (H / (n : ℚ)) :=
      mul_nonneg (Nat.cast_nonneg i) (le_of_lt hstep_pos)
    linarith
  · rw [← hci, zero_add]
    calc (i : ℚ) * (H / (n : ℚ))
        < (n : ℚ) * (H / (n : ℚ)) := by
          exact mul_lt_mul_of_pos_right (by exact_mod_cast hiln) hstep_pos
      _ = H := by field_simp

/-- The shared shape fact behind the resize claims: for a well-formed source
image at least 2×2 and positive requested sizes, `resize_image` succeeds and
the resulting value array has `y_size` rows of `x_size` entries each. -/
theorem resize_image_shape (img : PImage) (y_size x_size : Nat) (hwf : imgWf img)
    (hh : 2 ≤ img.height) (hw : 2 ≤ img.width)
    (hy : 1 ≤ y_size) (hx : 1 ≤ x_size) :
    ∃ vals, resize_image img y_size x_size "bilinear" = .ok vals ∧
      vals.length = y_size ∧ ∀ row ∈ vals, row.length = x_size := by
  have hhp : 0 < img.height := by omega
  have hwp : 0 < img.width := by omega
  have hfrom := from_image_ok img hwf hhp hwp
  have hHy : (0 : ℚ) < (img.height : ℚ) - 1 := by
    have : (2 : ℚ) ≤ (img.height : ℚ) := by exact_mod_cast hh
    linarith
  have hHx : (0 : ℚ) < (img.width : ℚ) - 1 := by
    have : (2 : ℚ) ≤ (img.width : ℚ) := by exact_mod_cast hw
    linarith
  have hdivy : divE ((img.height : ℚ) - 1) (y_size : ℚ) =
      .ok (((img.height : ℚ) - 1) / (y_size : ℚ)) := by
    unfold divE
    rw [if_neg (Nat.cast_ne_zero.mpr (by omega))]
  have hdivx : divE ((img.width : ℚ) - 1) (x_size : ℚ) =
      .ok (((img.width : ℚ) - 1) / (x_size : ℚ)) := by
    unfold divE
    rw [if_neg (Nat.cast_ne_zero.mpr (by omega))]
  have hay := arange_div hHy hy
  have hax := arange_div hHx hx
  set ygrid := (List.range y_size).map
    (fun (i : Nat) => 0 + (i : ℚ) * (((img.height : ℚ) - 1) / (y_size : ℚ))) with hygrid
  set xgrid := (List.range x_size).map
    (fun (i : Nat) => 0 + (i : ℚ) * (((img.width : ℚ) - 1) / (x_size : ℚ))) with hxgrid
  have hyb := arange_div_bounds hHy hy hay
  have hxb := arange_div_bounds hHx hx hax
  have hmk : mkGrid (ygrid, xgrid) none = .ok ⟨ygrid, xgrid, none⟩ :=
    mkGrid_ok_none (by rw [hyb.1]; omega) (by rw [hxb.1]; omega)
  set src : RectangularGrid :=
    ⟨natCoords img.height, natCoords img.width, some img.pixels⟩ with hsrc
  have hshape : shapeOk src img.pixels := by
    constructor
    · rw [hsrc]; dsimp only; rw [natCoords_length]; exact hwf.1
    · intro row hr
      rw [hsrc]; dsimp only; rw [natCoords_length]
      exact hwf.2 row hr
  have hcasth : ((img.height - 1 : Nat) : ℚ) = (img.height : ℚ) - 1 := by
    push_cast [Nat.cast_sub (by omega : 1 ≤ img.height)]
    ring
  have hcastw : ((img.width - 1 : Nat) : ℚ) = (img.width : ℚ) - 1 := by
    push_cast [Nat.cast_sub (by omega : 1 ≤ img.width)]
    ring
  have hpoint : ∀ y ∈ ygrid, ∀ x ∈ xgrid, ∃ v, interpolateAt src y x = .ok v := by
    intro y hymem x hxmem
    have hyc := hyb.2 y hymem
    have hxc := hxb.2 x hxmem
    exact interpolateAt_total src (natCoords_sorted img.width)
      (natCoords_sorted img.height) rfl hshape
      (natCoords_head hwp) (natCoords_last hwp)
      (natCoords_head hhp) (natCoords_last hhp)
      ⟨hxc.1, by rw [hcastw]; exact le_of_lt hxc.2⟩
      ⟨hyc.1, by rw [hcasth]; exact le_of_lt hyc.2⟩
  have hrows : ∀ y ∈ ygrid, ∃ row,
      xgrid.mapM (fun x => interpolateAt src y x) = .ok row ∧
      row.length = x_size := by
    intro y hymem
    rcases mapM_ok_of_forall _ xgrid (fun x hxmem => hpoint y hymem x hxmem) with
      ⟨row, hrow, hrlen, -⟩
    exact ⟨row, hrow, by rw [hrlen, hxb.1]⟩
  rcases mapM_ok_of_forall (fun y => xgrid.mapM (fun x => interpolateAt src y x)) ygrid
      (fun y hymem => (hrows y hymem).imp (fun row hr => hr.1)) with
    ⟨vals, hvals, hvlen, hvmem⟩
  refine ⟨vals, ?_, by rw [hvlen, hyb.1], ?_⟩
  · simp only [resize_image, hfrom, ebind_ok, hdivy, hdivx, hay, hax]
    rw [if_pos trivial]
    simp only [hmk, ebind_ok]
    exact hvals
  · intro row hr
    rcases hvmem row hr with ⟨y, hymem, hrow⟩
    have := mapM_ok_length _ xgrid row hrow
    rw [this, hxb.1]

/-! ## Claim theorems -/

/-- C1: for every source grid with strictly ascending axes and populated
values of matching shape, interpolating at a target point that coincides with
a source node returns exactly that node's stored value, and interpolating the
grid onto its own coordinate set reproduces the original value array exactly
(exact rational arithmetic). -/
theorem C1_node_exact_and_idempotent (g : RectangularGrid) (vals : List (List ℚ))
    (hsx : StrictAsc g.xCoords) (hsy : StrictAsc g.yCoords)
    (hv : g.values = some vals) (hshape : shapeOk g vals) :
    (∀ iy ix y x q, g.yCoords.get? iy = some y → g.xCoords.get? ix = some x →
      cell vals iy ix = some q → interpolateAt g y x = .ok q) ∧
    (∀ tgt : RectangularGrid, tgt.yCoords = g.yCoords → tgt.xCoords = g.xCoords →
      interpolate g tgt = .ok vals) := by
  constructor
  · intro iy ix y x q hy hx hq
    exact interpolateAt_node g hsx hsy hv hshape hy hx hq
  · intro tgt hty htx
    unfold interpolate
    rw [hty, htx]
    apply mapM_eq_ok_of_get _ _ _ hshape.1.symm
    intro iy y row hyg hrow
    apply mapM_eq_ok_of_get
    · exact (hshape.2 row (List.get?_mem hrow)).symm
    · intro ix x q hxg hq
      apply interpolateAt_node g hsx hsy hv hshape hyg hxg
      unfold cell
      rw [hrow]
      simpa using hq

/-- Witness for C1: the 3×3 sample grid interpolated onto its own coordinates
returns its value array exactly. -/
theorem C1_witness :
    interpolate sampleGrid sampleGrid = .ok [[1, 2, 3], [4, 5, 6], [7, 8, 9]] :=
  (C1_node_exact_and_idempotent sampleGrid [[1, 2, 3], [4, 5, 6], [7, 8, 9]]
    (by decide) (by decide) rfl ⟨by decide, by decide⟩).2 sampleGrid rfl rfl

/-- C2 counterexample: on the 3×3 sample grid the in-bounds query
`(y, x) = (1/2, 1)` has `x` exactly on the grid coordinate `1`, yet
`find_bounding_cell` returns `x_left = 0` and `x_right = 1`, not a collapsed
interval `x_left = x_right`. -/
theorem C2_counterexample :
    sampleGrid.find_bounding_cell (1/2) 1 = .ok (0, 0, 1, 1) ∧ (0 : ℚ) ≠ 1 := by
  constructor
  · decide
  · decide

/-- C2 (amended): with the `side='left'` search actually used, an in-bounds
query whose `x` equals a grid x-coordinate gets a cell with `x_right = x`
(the query on the cell's right edge, with `x_left` the previous coordinate, or
the wrapped maximum at the minimum coordinate); the interval degenerates to
`x_left = x_right` only when the x-axis has exactly one coordinate. The same
holds independently on the y-axis with `y_up = y`. -/
theorem C2_exact_match_right_edge (g : RectangularGrid)
    (hsx : StrictAsc g.xCoords) (hsy : StrictAsc g.yCoords)
    {y x xlo xhi ylo yhi : ℚ}
    (hx0 : g.xCoords.head? = some xlo) (hx1 : g.xCoords.getLast? = some xhi)
    (hy0 : g.yCoords.head? = some ylo) (hy1 : g.yCoords.getLast? = some yhi)
    (hbx : xlo ≤ x ∧ x ≤ xhi) (hby : ylo ≤ y ∧ y ≤ yhi) :
    (∀ ix, g.xCoords.get? ix = some x →
      ∃ l d u, g.find_bounding_cell y x = .ok (l, d, x, u) ∧
        (l = x ↔ g.xCoords.length = 1)) ∧
    (∀ iy, g.yCoords.get? iy = some y →
      ∃ l d r, g.find_bounding_cell y x = .ok (l, d, r, y) ∧
        (d = y ↔ g.yCoords.length = 1)) := by
  rcases fbc_ok_spec g hsx hsy hx0 hx1 hy0 hy1 hbx hby with
    ⟨il, id', l, d, r, u, hfbc, hil, hid, hr, hu, hil0, hils, hid0, hids⟩
  have hlenx : 0 < g.xCoords.length := length_pos_of_head? hx0
  have hleny : 0 < g.yCoords.length := length_pos_of_head? hy0
  constructor
  · intro ix hx
    have hss : searchsorted g.xCoords x = ix := searchsorted_get hsx hx
    rw [hss, hx] at hr
    have hrx : x = r := by injection hr
    subst hrx
    refine ⟨l, d, u, hfbc, ?_, ?_⟩
    · intro hlx
      have hilix : il = ix := sorted_get_inj hsx hil (hlx ▸ hx)
      match hix : ix, hss with
      | 0, hss0 =>
        have h1 := hil0 hss0
        omega
      | s + 1, hsss =>
        have h1 := hils s hsss
        omega
    · intro hlen1
      have hix0 : ix = 0 := by
        rcases List.get?_eq_some.mp hx with ⟨hixlt, _⟩
        omega
      have hss0 : searchsorted g.xCoords x = 0 := by rw [hss, hix0]
      have hil' : il = 0 := by
        have := hil0 hss0
        omega
      rw [hil', ← hix0] at hil
      rw [hx] at hil
      have hxl : x = l := by injection hil
      exact hxl.symm
  · intro iy hy
    have hss : searchsorted g.yCoords y = iy := searchsorted_get hsy hy
    rw [hss, hy] at hu
    have huy : y = u := by injection hu
    subst huy
    refine ⟨l, d, r, hfbc, ?_, ?_⟩
    · intro hdy
      have hidiy : id' = iy := sorted_get_inj hsy hid (hdy ▸ hy)
      match hiy : iy, hss with
      | 0, hss0 =>
        have h1 := hid0 hss0
        omega
      | s + 1, hsss =>
        have h1 := hids s hsss
        omega
    · intro hlen1
      have hiy0 : iy = 0 := by
        rcases List.get?_eq_some.mp hy with ⟨hiylt, _⟩
        omega
      have hss0 : searchsorted g.yCoords y = 0 := by rw [hss, hiy0]
      have hid' : id' = 0 := by
        have := hid0 hss0
        omega
      rw [hid', ← hiy0] at hid
      rw [hy] at hid
      have hyd : y = d := by injection hid
      exact hyd.symm

/-- Witness for the amended C2 on the sample grid at `(y, x) = (1/2, 1)`. -/
theorem C2_witness :
    (∀ ix, sampleGrid.xCoords.get? ix = some 1 →
      ∃ l d u, sampleGrid.find_bounding_cell (1/2) 1 = .ok (l, d, 1, u) ∧
        (l = 1 ↔ sampleGrid.xCoords.length = 1)) ∧
    (∀ iy, sampleGrid.yCoords.get? iy = some (1/2) →
      ∃ l d r, sampleGrid.find_bounding_cell (1/2) 1 = .ok (l, d, r, 1/2) ∧
        (d = 1/2 ↔ sampleGrid.yCoords.length = 1)) :=
  @C2_exact_match_right_edge sampleGrid (by decide) (by decide) (1/2) 1 0 2 0 2
    rfl (by decide) rfl (by decide) (by decide) (by decide)

/-- C5: on the grid `y = [0,1,2]`, `x = [0,1,2]`,
`values = [[1,2,3],[4,5,6],[7,8,9]]`, interpolation returns exactly `3` at
`(1/2, 1/2)`, `5/2` at `(1/2, 0)`, `3/2` at `(0, 1/2)` and `5` at `(1, 1)`. -/
theorem C5_concrete_scenario :
    interpolate sampleGrid ⟨[1/2], [1/2], none⟩ = .ok [[3]] ∧
    interpolate sampleGrid ⟨[1/2], [0], none⟩ = .ok [[5/2]] ∧
    interpolate sampleGrid ⟨[0], [1/2], none⟩ = .ok [[3/2]] ∧
    interpolate sampleGrid ⟨[1], [1], none⟩ = .ok [[5]] := by
  refine ⟨?_, ?_, ?_, ?_⟩ <;> decide

/-- C6: the degenerate cases are dispatched before the blend formulas, so no
branch that `interpolateAt` actually takes divides by zero: the variant whose
divisions all report a zero divisor computes exactly the same result on every
grid and every query point. -/
theorem C6_no_division_by_zero (g : RectangularGrid) (y x : ℚ) :
    interpolateAtChecked g y x = interpolateAt g y x := by
  cases hfbc : g.find_bounding_cell y x with
  | error e =>
    simp only [interpolateAtChecked, interpolateAt, hfbc, ebind_error]
  | ok c =>
    obtain ⟨l, d, r, u⟩ := c
    simp only [interpolateAtChecked, interpolateAt, hfbc, ebind_ok]
    cases h11 : g.get_value d l with
    | error e => simp only [h11, ebind_error]
    | ok q11 =>
      simp only [h11, ebind_ok]
      cases h12 : g.get_value u l with
      | error e => simp only [h12, ebind_error]
      | ok q12 =>
        simp only [h12, ebind_ok]
        cases h21 : g.get_value d r with
        | error e => simp only [h21, ebind_error]
        | ok q21 =>
          simp only [h21, ebind_ok]
          cases h22 : g.get_value u r with
          | error e => simp only [h22, ebind_error]
          | ok q22 =>
            simp only [h22, ebind_ok]
            by_cases hrl : r = l
            · by_cases hud : u = d
              · rw [if_pos ⟨hrl, hud⟩, if_pos ⟨hrl, hud⟩]
              · simp [hrl, hud, divE, sub_ne_zero.mpr hud, epure_eq_ok]
            · by_cases hud : u = d
              · simp [hrl, hud, divE, sub_ne_zero.mpr hrl, epure_eq_ok]
              · simp [hrl, hud, divE, sub_ne_zero.mpr hrl, sub_ne_zero.mpr hud,
                  mul_ne_zero (sub_ne_zero.mpr hrl) (sub_ne_zero.mpr hud), epure_eq_ok]

/-- C3: at a target point strictly inside a source cell, `interpolate`
produces exactly the bilinear area-weighted sum of the four corner values; the
weights are nonnegative and sum to one, so the result lies between the
minimum and the maximum of the four corner values. -/
theorem C3_inside_convex_combination (g : RectangularGrid) (vals : List (List ℚ))
    (hsx : StrictAsc g.xCoords) (hsy : StrictAsc g.yCoords)
    (hv : g.values = some vals) (hshape : shapeOk g vals)
    {ix iy : Nat} {xl xr yd yu : ℚ}
    (hxl : g.xCoords.get? ix = some xl) (hxr : g.xCoords.get? (ix + 1) = some xr)
    (hyd : g.yCoords.get? iy = some yd) (hyu : g.yCoords.get? (iy + 1) = some yu)
    {x y : ℚ} (hx : xl < x ∧ x < xr) (hy : yd < y ∧ y < yu)
    {q11 q12 q21 q22 : ℚ}
    (h11 : cell vals iy ix = some q11) (h12 : cell vals (iy + 1) ix = some q12)
    (h21 : cell vals iy (ix + 1) = some q21) (h22 : cell vals (iy + 1) (ix + 1) = some q22) :
    ∃ v, interpolateAt g y x = .ok v ∧
      v = q11 * ((xr - x) * (yu - y) / ((xr - xl) * (yu - yd)))
        + q21 * ((x - xl) * (yu - y) / ((xr - xl) * (yu - yd)))
        + q12 * ((xr - x) * (y - yd) / ((xr - xl) * (yu - yd)))
        + q22 * ((x - xl) * (y - yd) / ((xr - xl) * (yu - yd))) ∧
      0 ≤ (xr - x) * (yu - y) / ((xr - xl) * (yu - yd)) ∧
      0 ≤ (x - xl) * (yu - y) / ((xr - xl) * (yu - yd)) ∧
      0 ≤ (xr - x) * (y - yd) / ((xr - xl) * (yu - yd)) ∧
      0 ≤ (x - xl) * (y - yd) / ((xr - xl) * (yu - yd)) ∧
      (xr - x) * (yu - y) / ((xr - xl) * (yu - yd))
        + (x - xl) * (yu - y) / ((xr - xl) * (yu - yd))
        + (xr - x) * (y - yd) / ((xr - xl) * (yu - yd))
        + (x - xl) * (y - yd) / ((xr - xl) * (yu - yd)) = 1 ∧
      min (min q11 q21) (min q12 q22) ≤ v ∧
      v ≤ max (max q11 q21) (max q12 q22) := by
  have heval := interpolateAt_inside g hsx hsy hv hshape hxl hxr hyd hyu hx hy
    h11 h12 h21 h22
  have hxp : 0 < xr - xl := by linarith [hx.1, hx.2]
  have hyp : 0 < yu - yd := by linarith [hy.1, hy.2]
  have hA : 0 < (xr - xl) * (yu - yd) := mul_pos hxp hyp
  have hw1 : 0 ≤ (xr - x) * (yu - y) / ((xr - xl) * (yu - yd)) :=
    div_nonneg (mul_nonneg (by linarith [hx.2]) (by linarith [hy.2])) (le_of_lt hA)
  have hw2 : 0 ≤ (x - xl) * (yu - y) / ((xr - xl) * (yu - yd)) :=
    div_nonneg (mul_nonneg (by linarith [hx.1]) (by linarith [hy.2])) (le_of_lt hA)
  have hw3 : 0 ≤ (xr - x) * (y - yd) / ((xr - xl) * (yu - yd)) :=
    div_nonneg (mul_nonneg (by linarith [hx.2]) (by linarith [hy.1])) (le_of_lt hA)
  have hw4 : 0 ≤ (x - xl) * (y - yd) / ((xr - xl) * (yu - yd)) :=
    div_nonneg (mul_nonneg (by linarith [hx.1]) (by linarith [hy.1])) (le_of_lt hA)
  have hwsum : (xr - x) * (yu - y) / ((xr - xl) * (yu - yd))
      + (x - xl) * (yu - y) / ((xr - xl) * (yu - yd))
      + (xr - x) * (y - yd) / ((xr - xl) * (yu - yd))
      + (x - xl) * (y - yd) / ((xr - xl) * (yu - yd)) = 1 := by
    rw [div_add_div_same, div_add_div_same, div_add_div_same]
    rw [show (xr - x) * (yu - y) + (x - xl) * (yu - y) + (xr - x) * (y - yd)
        + (x - xl) * (y - yd) = (xr - xl) * (yu - yd) by ring]
    exact div_self (ne_of_gt hA)
  have hvexpr : (q11 * (xr - x) * (yu - y) + q21 * (x - xl) * (yu - y)
      + q12 * (xr - x) * (y - yd) + q22 * (x - xl) * (y - yd))
      / ((xr - xl) * (yu - yd))
      = q11 * ((xr - x) * (yu - y) / ((xr - xl) * (yu - yd)))
        + q21 * ((x - xl) * (yu - y) / ((xr - xl) * (yu - yd)))
        + q12 * ((xr - x) * (y - yd) / ((xr - xl) * (yu - yd)))
        + q22 * ((x - xl) * (y - yd) / ((xr - xl) * (yu - yd))) := by
    ring
  have hbounds := convex_comb_bounds q11 q21 q12 q22
    ((xr - x) * (yu - y) / ((xr - xl) * (yu - yd)))
    ((x - xl) * (yu - y) / ((xr - xl) * (yu - yd)))
    ((xr - x) * (y - yd) / ((xr - xl) * (yu - yd)))
    ((x - xl) * (y - yd) / ((xr - xl) * (yu - yd)))
    hw1 hw2 hw3 hw4 hwsum
  refine ⟨_, heval, hvexpr, hw1, hw2, hw3, hw4, hwsum, ?_, ?_⟩
  · rw [hvexpr]
    exact hbounds.1
  · rw [hvexpr]
    exact hbounds.2

/-- Witness for C3 on the sample grid at the interior point `(1/2, 1/2)` of
the cell `[0,1] × [0,1]`. -/
theorem C3_witness :
    ∃ v, interpolateAt sampleGrid (1/2) (1/2) = .ok v ∧
      v = 1 * ((1 - 1/2) * (1 - 1/2) / ((1 - 0) * (1 - 0)))
        + 2 * ((1/2 - 0) * (1 - 1/2) / ((1 - 0) * (1 - 0)))
        + 4 * ((1 - 1/2) * (1/2 - 0) / ((1 - 0) * (1 - 0)))
        + 5 * ((1/2 - 0) * (1/2 - 0) / ((1 - 0) * (1 - 0))) ∧
      0 ≤ (1 - 1/2) * (1 - 1/2) / ((1 - 0) * (1 - 0) : ℚ) ∧
      0 ≤ (1/2 - 0) * (1 - 1/2) / ((1 - 0) * (1 - 0) : ℚ) ∧
      0 ≤ (1 - 1/2) * (1/2 - 0) / ((1 - 0) * (1 - 0) : ℚ) ∧
      0 ≤ (1/2 - 0) * (1/2 - 0) / ((1 - 0) * (1 - 0) : ℚ) ∧
      (1 - 1/2) * (1 - 1/2) / ((1 - 0) * (1 - 0) : ℚ)
        + (1/2 - 0) * (1 - 1/2) / ((1 - 0) * (1 - 0))
        + (1 - 1/2) * (1/2 - 0) / ((1 - 0) * (1 - 0))
        + (1/2 - 0) * (1/2 - 0) / ((1 - 0) * (1 - 0)) = 1 ∧
      min (min 1 2) (min 4 5) ≤ v ∧ v ≤ max (max 1 2) (max 4 5) :=
  @C3_inside_convex_combination sampleGrid [[1, 2, 3], [4, 5, 6], [7, 8, 9]]
    (by decide) (by decide) rfl ⟨by decide, by decide⟩ 0 0 0 1 0 1
    (by decide) (by decide) (by decide) (by decide) (1/2) (1/2)
    ⟨by decide, by decide⟩ ⟨by decide, by decide⟩ 1 4 2 5
    (by decide) (by decide) (by decide) (by decide)

/-- A `mapM` over `Except` in which every element either succeeds or fails
with the fixed error `E` fails with exactly `E` as soon as one element
fails. -/
theorem mapM_error_of_dichotomy {α β : Type} (f : α → Except String β) (E : String) :
    ∀ l : List α, (∀ a ∈ l, (∃ b, f a = .ok b) ∨ f a = .error E) →
      (∃ a ∈ l, f a = .error E) → l.mapM f = .error E := by
  intro l
  induction l with
  | nil =>
    intro _ hex
    rcases hex with ⟨a, ha, _⟩
    simp at ha
  | cons c t ih =>
    intro hall hex
    rw [List.mapM_cons]
    rcases hall c (List.mem_cons_self c t) with ⟨b, hb⟩ | hb
    · rw [hb, ebind_ok]
      have hext : ∃ a ∈ t, f a = .error E := by
        rcases hex with ⟨a, ha, hfa⟩
        rcases List.mem_cons.mp ha with hac | hat
        · rw [hac] at hfa
          rw [hfa] at hb
          cases hb
        · exact ⟨a, hat, hfa⟩
      rw [ih (fun a ha => hall a (List.mem_cons_of_mem c ha)) hext]
      rfl
    · rw [hb]
      rfl

/-- C4: `find_bounding_cell` fails exactly on the queries lying outside the
inclusive coordinate ranges of the grid (a query on a boundary coordinate
succeeds), and for any target grid containing such an out-of-bounds point the
whole `interpolate` call fails with the same out-of-bounds error — there is no
extrapolation. -/
theorem C4_out_of_bounds_iff (g : RectangularGrid) (vals : List (List ℚ))
    (hsx : StrictAsc g.xCoords) (hsy : StrictAsc g.yCoords)
    (hv : g.values = some vals) (hshape : shapeOk g vals)
    {xlo xhi ylo yhi : ℚ}
    (hx0 : g.xCoords.head? = some xlo) (hx1 : g.xCoords.getLast? = some xhi)
    (hy0 : g.yCoords.head? = some ylo) (hy1 : g.yCoords.getLast? = some yhi)
    (y x : ℚ) :
    ((∃ e, g.find_bounding_cell y x = .error e) ↔
      (x < xlo ∨ xhi < x ∨ y < ylo ∨ yhi < y)) ∧
    ((x < xlo ∨ xhi < x ∨ y < ylo ∨ yhi < y) →
      ∀ tgt : RectangularGrid, y ∈ tgt.yCoords → x ∈ tgt.xCoords →
        interpolate g tgt = .error "Point is out of grid bounds") := by
  have hdich : ∀ y' x' : ℚ, (∃ v, interpolateAt g y' x' = .ok v) ∨
      interpolateAt g y' x' = .error "Point is out of grid bounds" := by
    intro y' x'
    by_cases hin : xlo ≤ x' ∧ x' ≤ xhi ∧ ylo ≤ y' ∧ y' ≤ yhi
    · exact Or.inl (interpolateAt_total g hsx hsy hv hshape hx0 hx1 hy0 hy1
        ⟨hin.1, hin.2.1⟩ ⟨hin.2.2.1, hin.2.2.2⟩)
    · exact Or.inr (interpolateAt_error (fbc_oob g hx0 hx1 hy0 hy1 hin))
  constructor
  · constructor
    · intro herr
      by_contra hnot
      push_neg at hnot
      have hin : xlo ≤ x ∧ x ≤ xhi ∧ ylo ≤ y ∧ y ≤ yhi :=
        ⟨hnot.1, hnot.2.1, hnot.2.2.1, hnot.2.2.2⟩
      rcases fbc_ok_spec g hsx hsy hx0 hx1 hy0 hy1 ⟨hin.1, hin.2.1⟩
        ⟨hin.2.2.1, hin.2.2.2⟩ with ⟨_, _, _, _, _, _, hfbc, -, -, -, -, -, -, -, -⟩
      rcases herr with ⟨e, he⟩
      rw [hfbc] at he
      cases he
    · intro hout
      refine ⟨"Point is out of grid bounds", fbc_oob g hx0 hx1 hy0 hy1 ?_⟩
      intro hin
      rcases hout with h | h | h | h
      · exact absurd hin.1 (not_le.mpr h)
      · exact absurd hin.2.1 (not_le.mpr h)
      · exact absurd hin.2.2.1 (not_le.mpr h)
      · exact absurd hin.2.2.2 (not_le.mpr h)
  · intro hout tgt hymem hxmem
    have hoob : interpolateAt g y x = .error "Point is out of grid bounds" := by
      apply interpolateAt_error
      apply fbc_oob g hx0 hx1 hy0 hy1
      intro hin
      rcases hout with h | h | h | h
      · exact absurd hin.1 (not_le.mpr h)
      · exact absurd hin.2.1 (not_le.mpr h)
      · exact absurd hin.2.2.1 (not_le.mpr h)
      · exact absurd hin.2.2.2 (not_le.mpr h)
    unfold interpolate
    apply mapM_error_of_dichotomy
    · intro y' _
      by_cases hallok : ∀ x' ∈ tgt.xCoords, ∃ v, interpolateAt g y' x' = .ok v
      · rcases mapM_ok_of_forall _ _ hallok with ⟨row, hrow, -, -⟩
        exact Or.inl ⟨row, hrow⟩
      · push_neg at hallok
        rcases hallok with ⟨x', hx'mem, hx'err⟩
        right
        apply mapM_error_of_dichotomy _ _ _ (fun a _ => hdich y' a)
        refine ⟨x', hx'mem, ?_⟩
        rcases hdich y' x' with ⟨v, hvok⟩ | herr
        · exact absurd hvok (hx'err v)
        · exact herr
    · refine ⟨y, hymem, ?_⟩
      apply mapM_error_of_dichotomy _ _ _ (fun a _ => hdich y a)
      exact ⟨x, hxmem, hoob⟩

/-- Witness for C4: the query `(5, 5)` lies outside the sample grid on both
axes, and interpolation of any target containing it fails. -/
theorem C4_witness :
    ((∃ e, sampleGrid.find_bounding_cell 5 5 = .error e) ↔
      ((5 : ℚ) < 0 ∨ (2 : ℚ) < 5 ∨ (5 : ℚ) < 0 ∨ (2 : ℚ) < 5)) ∧
    (((5 : ℚ) < 0 ∨ (2 : ℚ) < 5 ∨ (5 : ℚ) < 0 ∨ (2 : ℚ) < 5) →
      ∀ tgt : RectangularGrid, (5 : ℚ) ∈ tgt.yCoords → (5 : ℚ) ∈ tgt.xCoords →
        interpolate sampleGrid tgt = .error "Point is out of grid bounds") :=
  @C4_out_of_bounds_iff sampleGrid [[1, 2, 3], [4, 5, 6], [7, 8, 9]]
    (by decide) (by decide) rfl ⟨by decide, by decide⟩ 0 2 0 2
    rfl (by decide) rfl (by decide) 5 5

theorem sorted_head_lt_last {lst : List ℚ} (hs : StrictAsc lst) {a b : ℚ}
    (h0 : lst.head? = some a) (h1 : lst.getLast? = some b) (hlen : 2 ≤ lst.length) :
    a < b := by
  have h0g : lst.get? 0 = some a := by rw [List.get?_zero]; exact h0
  have h1g : lst.get? (lst.length - 1) = some b := by
    rw [← List.getLast?_eq_get?]; exact h1
  rcases List.get?_eq_some.mp h0g with ⟨hi, hga⟩
  rcases List.get?_eq_some.mp h1g with ⟨hj, hgb⟩
  have := List.pairwise_iff_get.mp hs ⟨0, hi⟩ ⟨lst.length - 1, hj⟩
    (Fin.mk_lt_mk.mpr (by omega))
  rw [hga, hgb] at this
  exact this

/-- C7: under exact rational arithmetic, each target axis of `resize_image` is
built by stepping from `0` with step `(dim - 1) / out_size`, yielding exactly
`out_size` coordinates all nonnegative and strictly below `dim - 1`; the
interpolation therefore succeeds and the resized value array has shape
`(y_size, x_size)`. -/
theorem C7_resize_sampling (img : PImage) (y_size x_size : Nat) (hwf : imgWf img)
    (hh : 2 ≤ img.height) (hw : 2 ≤ img.width)
    (hy : 1 ≤ y_size) (hx : 1 ≤ x_size) :
    (arange 0 ((img.height : ℚ) - 1) (((img.height : ℚ) - 1) / (y_size : ℚ)) =
      .ok ((List.range y_size).map
        (fun (i : Nat) => 0 + (i : ℚ) * (((img.height : ℚ) - 1) / (y_size : ℚ))))) ∧
    (∀ coords, arange 0 ((img.height : ℚ) - 1) (((img.height : ℚ) - 1) / (y_size : ℚ)) =
        .ok coords →
      coords.length = y_size ∧ ∀ c ∈ coords, 0 ≤ c ∧ c < (img.height : ℚ) - 1) ∧
    (arange 0 ((img.width : ℚ) - 1) (((img.width : ℚ) - 1) / (x_size : ℚ)) =
      .ok ((List.range x_size).map
        (fun (i : Nat) => 0 + (i : ℚ) * (((img.width : ℚ) - 1) / (x_size : ℚ))))) ∧
    (∀ coords, arange 0 ((img.width : ℚ) - 1) (((img.width : ℚ) - 1) / (x_size : ℚ)) =
        .ok coords →
      coords.length = x_size ∧ ∀ c ∈ coords, 0 ≤ c ∧ c < (img.width : ℚ) - 1) ∧
    (∃ vals, resize_image img y_size x_size "bilinear" = .ok vals ∧
      vals.length = y_size ∧ ∀ row ∈ vals, row.length = x_size) := by
  have hHy : (0 : ℚ) < (img.height : ℚ) - 1 := by
    have : (2 : ℚ) ≤ (img.height : ℚ) := by exact_mod_cast hh
    linarith
  have hHx : (0 : ℚ) < (img.width : ℚ) - 1 := by
    have : (2 : ℚ) ≤ (img.width : ℚ) := by exact_mod_cast hw
    linarith
  exact ⟨arange_div hHy hy, fun coords h => arange_div_bounds hHy hy h,
    arange_div hHx hx, fun coords h => arange_div_bounds hHx hx h,
    resize_image_shape img y_size x_size hwf hh hw hy hx⟩

/-- Witness for C7: resizing a 2×3 image to 2×2 succeeds with a 2×2 value
array. -/
theorem C7_witness :
    ∃ vals, resize_image ⟨2, 3, [[0, 1, 2], [3, 4, 5]]⟩ 2 2 "bilinear" = .ok vals ∧
      vals.length = 2 ∧ ∀ row ∈ vals, row.length = 2 :=
  (C7_resize_sampling ⟨2, 3, [[0, 1, 2], [3, 4, 5]]⟩ 2 2
    ⟨by decide, by decide⟩ (by decide) (by decide) (by decide) (by decide)).2.2.2.2

/-- C8: at an in-bounds query whose `x` is exactly the minimum x-coordinate of
an axis with at least two coordinates, the `-1` left index wraps (Python
negative indexing), so `find_bounding_cell` returns `x_left` equal to the
maximum x-coordinate and `x_right` equal to the queried minimum, with
`x_left > x_right` instead of an enclosing interval; the same happens on the
y-axis at the minimum y-coordinate. -/
theorem C8_min_coordinate_wraps (g : RectangularGrid)
    (hsx : StrictAsc g.xCoords) (hsy : StrictAsc g.yCoords)
    {y x xlo xhi ylo yhi : ℚ}
    (hx0 : g.xCoords.head? = some xlo) (hx1 : g.xCoords.getLast? = some xhi)
    (hy0 : g.yCoords.head? = some ylo) (hy1 : g.yCoords.getLast? = some yhi)
    (hbx : xlo ≤ x ∧ x ≤ xhi) (hby : ylo ≤ y ∧ y ≤ yhi) :
    ((x = xlo ∧ 2 ≤ g.xCoords.length) →
      ∃ d u, g.find_bounding_cell y x = .ok (xhi, d, x, u) ∧ x < xhi) ∧
    ((y = ylo ∧ 2 ≤ g.yCoords.length) →
      ∃ l r, g.find_bounding_cell y x = .ok (l, yhi, r, y) ∧ y < yhi) := by
  rcases fbc_ok_spec g hsx hsy hx0 hx1 hy0 hy1 hbx hby with
    ⟨il, id', l, d, r, u, hfbc, hil, hid, hr, hu, hil0, hils, hid0, hids⟩
  have hx1g : g.xCoords.get? (g.xCoords.length - 1) = some xhi := by
    rw [← List.getLast?_eq_get?]; exact hx1
  have hy1g : g.yCoords.get? (g.yCoords.length - 1) = some yhi := by
    rw [← List.getLast?_eq_get?]; exact hy1
  constructor
  · rintro ⟨hxeq, hlen2⟩
    have hheadx : g.xCoords.head? = some x := by rw [hx0, hxeq]
    have hss : searchsorted g.xCoords x = 0 := searchsorted_head hheadx
    have hile := hil0 hss
    have hlx : l = xhi := by
      rw [hile] at hil
      rw [hil] at hx1g
      injection hx1g
    have hrx : r = x := by
      rw [hss] at hr
      have h0 : g.xCoords.get? 0 = some x := by rw [List.get?_zero]; exact hheadx
      rw [h0] at hr
      have hxr : x = r := by injection hr
      exact hxr.symm
    have hlt : xlo < xhi := sorted_head_lt_last hsx hx0 hx1 hlen2
    rw [hlx, hrx] at hfbc
    exact ⟨d, u, hfbc, hxeq ▸ hlt⟩
  · rintro ⟨hyeq, hlen2⟩
    have hheady : g.yCoords.head? = some y := by rw [hy0, hyeq]
    have hss : searchsorted g.yCoords y = 0 := searchsorted_head hheady
    have hide := hid0 hss
    have hdy : d = yhi := by
      rw [hide] at hid
      rw [hid] at hy1g
      injection hy1g
    have huy : u = y := by
      rw [hss] at hu
      have h0 : g.yCoords.get? 0 = some y := by rw [List.get?_zero]; exact hheady
      rw [h0] at hu
      have hyu : y = u := by injection hu
      exact hyu.symm
    have hlt : ylo < yhi := sorted_head_lt_last hsy hy0 hy1 hlen2
    rw [hdy, huy] at hfbc
    exact ⟨l, r, hfbc, hyeq ▸ hlt⟩

/-- Witness for C8 on the sample grid at the minimum corner `(0, 0)`. -/
theorem C8_witness :
    (((0 : ℚ) = 0 ∧ 2 ≤ sampleGrid.xCoords.length) →
      ∃ d u, sampleGrid.find_bounding_cell 0 0 = .ok (2, d, 0, u) ∧ (0 : ℚ) < 2) ∧
    (((0 : ℚ) = 0 ∧ 2 ≤ sampleGrid.yCoords.length) →
      ∃ l r, sampleGrid.find_bounding_cell 0 0 = .ok (l, 2, r, 0) ∧ (0 : ℚ) < 2) :=
  @C8_min_coordinate_wraps sampleGrid (by decide) (by decide) 0 0 0 2 0 2
    rfl (by decide) rfl (by decide) (by decide) (by decide)

/-- C9: the CLI `resize` command passes `--width` as `y_size` and `--height`
as `x_size`, so the produced value array has `width` rows and `height`
columns — the requested dimensions are swapped relative to the option
names. -/
theorem C9_cli_swaps_axes (img : PImage) (hwf : imgWf img)
    (hh : 2 ≤ img.height) (hw : 2 ≤ img.width)
    (W H : Int) (hW : 1 ≤ W) (hH : 1 ≤ H) :
    cliResize img W H "bilinear" = resize_image img W.toNat H.toNat "bilinear" ∧
    ∃ vals, cliResize img W H "bilinear" = .ok vals ∧
      vals.length = W.toNat ∧ ∀ row ∈ vals, row.length = H.toNat := by
  have heq : cliResize img W H "bilinear" = resize_image img W.toNat H.toNat "bilinear" := by
    unfold cliResize
    rw [if_neg (not_or.mpr ⟨by omega, by omega⟩)]
  refine ⟨heq, ?_⟩
  rw [heq]
  exact resize_image_shape img W.toNat H.toNat hwf hh hw (by omega) (by omega)

/-- Witness for C9: `--width 3 --height 2` on a 2×3 image produces 3 rows of
2 entries. -/
theorem C9_witness :
    cliResize ⟨2, 3, [[0, 1, 2], [3, 4, 5]]⟩ 3 2 "bilinear" =
      resize_image ⟨2, 3, [[0, 1, 2], [3, 4, 5]]⟩ (3 : Int).toNat (2 : Int).toNat "bilinear" ∧
    ∃ vals, cliResize ⟨2, 3, [[0, 1, 2], [3, 4, 5]]⟩ 3 2 "bilinear" = .ok vals ∧
      vals.length = (3 : Int).toNat ∧ ∀ row ∈ vals, row.length = (2 : Int).toNat :=
  C9_cli_swaps_axes ⟨2, 3, [[0, 1, 2], [3, 4, 5]]⟩ ⟨by decide, by decide⟩
    (by decide) (by decide) 3 2 (by decide) (by decide)

theorem from_image_ok_dims {img : PImage} {src : RectangularGrid}
    (h : from_image img = .ok src) : 0 < img.height ∧ 0 < img.width := by
  unfold from_image mkGrid at h
  by_cases hc : (natCoords img.height, natCoords img.width).1.length = 0 ∨
      (natCoords img.height, natCoords img.width).2.length = 0
  · rw [if_pos hc] at h
    cases h
  · rw [natCoords_length, natCoords_length] at hc
    push_neg at hc
    exact ⟨by omega, by omega⟩

/-- C10: if the source image has height 1 or width 1, the step
`(dim - 1) / out_size` on that axis is zero, `np.arange` cannot build the
target coordinate axis (zero step is a `ZeroDivisionError`), and
`resize_image` fails for every requested output size; no resized image is
produced. -/
theorem C10_degenerate_axis_fails (img : PImage)
    (hdim : img.height = 1 ∨ img.width = 1) (y_size x_size : Nat) :
    ∃ e, resize_image img y_size x_size "bilinear" = .error e := by
  cases hfi : from_image img with
  | error e =>
    exact ⟨e, by simp only [resize_image, hfi, ebind_error]⟩
  | ok src =>
    have hdims := from_image_ok_dims hfi
    by_cases hy0 : y_size = 0
    · refine ⟨"division by zero", ?_⟩
      have hdy : divE ((img.height : ℚ) - 1) ((y_size : ℚ)) = .error "division by zero" := by
        unfold divE
        rw [hy0]
        rw [if_pos (by norm_num)]
      simp only [resize_image, hfi, ebind_ok, hdy, ebind_error]
    · by_cases hh1 : img.height = 1
      · refine ⟨"division by zero", ?_⟩
        have hdy : divE ((img.height : ℚ) - 1) ((y_size : ℚ)) = .ok 0 := by
          unfold divE
          rw [if_neg (Nat.cast_ne_zero.mpr hy0), hh1]
          norm_num
        have hay : arange 0 ((img.height : ℚ) - 1) 0 = .error "division by zero" := by
          unfold arange
          rw [if_pos rfl]
        simp only [resize_image, hfi, ebind_ok, hdy, hay, ebind_error]
      · have hw1 : img.width = 1 := by
          rcases hdim with h | h
          · exact absurd h hh1
          · exact h
        have hh2 : 2 ≤ img.height := by omega
        have hHy : (0 : ℚ) < (img.height : ℚ) - 1 := by
          have : (2 : ℚ) ≤ (img.height : ℚ) := by exact_mod_cast hh2
          linarith
        have hdy : divE ((img.height : ℚ) - 1) ((y_size : ℚ)) =
            .ok (((img.height : ℚ) - 1) / (y_size : ℚ)) := by
          unfold divE
          rw [if_neg (Nat.cast_ne_zero.mpr hy0)]
        have hay := arange_div hHy (by omega : 1 ≤ y_size)
        by_cases hx0 : x_size = 0
        · refine ⟨"division by zero", ?_⟩
          have hdx : divE ((img.width : ℚ) - 1) ((x_size : ℚ)) = .error "division by zero" := by
            unfold divE
            rw [hx0]
            rw [if_pos (by norm_num)]
          simp only [resize_image, hfi, ebind_ok, hdy, hay, hdx, ebind_error]
        · refine ⟨"division by zero", ?_⟩
          have hdx : divE ((img.width : ℚ) - 1) ((x_size : ℚ)) = .ok 0 := by
            unfold divE
            rw [if_neg (Nat.cast_ne_zero.mpr hx0), hw1]
            norm_num
          have hax : arange 0 ((img.width : ℚ) - 1) 0 = .error "division by zero" := by
            unfold arange
            rw [if_pos rfl]
          simp only [resize_image, hfi, ebind_ok, hdy, hay, hdx, hax, ebind_error]

/-- Witness for C10: a 1×2 image cannot be resized. -/
theorem C10_witness :
    ∃ e, resize_image ⟨1, 2, [[0, 1]]⟩ 3 3 "bilinear" = .error e :=
  C10_degenerate_axis_fails ⟨1, 2, [[0, 1]]⟩ (Or.inl rfl) 3 3
